import Mathlib

/-!
Shallow embedding of `src/main.cpp` (LockfreeMandelbrot).

Modelling conventions:
* C++ `double` arithmetic is modelled by exact rational arithmetic (`ℚ`);
  every arithmetic expression is translated term by term from the source.
* Machine integers (`int`, `uint16_t`, `uint32_t`, `uint64_t`) are modelled by
  `Nat`; all values arising in the program are small and nonnegative, far from
  any overflow boundary (iteration counts are at most 1000, indices at most
  width*height = 20060).
* The shared result grid `std::vector<std::vector<ResultType>>` is modelled as
  a total function `Nat → Nat → Nat` (cell `map[x][y]` is `g x y`), zero
  initialised as in `MandelbrotBitmap`.
* The single-worker execution of `LockfreeMandelbrot::loop` is a fuel-indexed
  recursion whose fuel strictly exceeds the number of claim steps, so the
  fuel-exhaustion branch is unreachable.
-/

namespace Mandel

/-- `cMaxIterations` of main.cpp (line 184). -/
def cMaxIterations : Nat := 1000

/-- `cBatchSize` of main.cpp (line 8). -/
def cBatchSize : Nat := 20000

/-- `cWidthPixels` of main.cpp (line 9). -/
def cWidthPixels : Nat := 170

/-- `cHeightPixels` of main.cpp (line 10). -/
def cHeightPixels : Nat := 118

/-- One execution of the body of the `for` loop in
`LockfreeMandelbrot::render` (lines 163-165):
`xtemp = x*x - y*y + scaledX; y = 2*x*y + scaledY; x = xtemp`. -/
def mandelStep (cx cy x y : ℚ) : ℚ × ℚ := (x * x - y * y + cx, 2 * x * y + cy)

/-- The escape test of `render` (line 166): `x*x + y*y > 2*2`. -/
def escaped (p : ℚ × ℚ) : Prop := 2 * 2 < p.1 * p.1 + p.2 * p.2

instance (p : ℚ × ℚ) : Decidable (escaped p) := by unfold escaped; infer_instance

/-- The `for` loop of `LockfreeMandelbrot::render`: `fuel` is the number of
iterations still allowed (`cMaxIterations - i`), `(x, y)` the current value of
the loop variables.  Returns the number of iterations performed from this state
until the escape test fires (0 when it fires on the first iteration), or `fuel`
if it never fires. -/
def renderAux (cx cy x y : ℚ) : Nat → Nat
  | 0 => 0
  | fuel + 1 =>
    let p := mandelStep cx cy x y
    if escaped p then 0 else renderAux cx cy p.1 p.2 fuel + 1

/-- `LockfreeMandelbrot::render` (lines 158-171): starts from `x = 0, y = 0`
and runs up to `cMaxIterations` iterations, returning the final `i`. -/
def render (cx cy : ℚ) : Nat := renderAux cx cy 0 0 cMaxIterations

/-- The orbit of the escape-time recurrence started at the point `(x, y)`:
`orbitFrom cx cy x y n` is the value of the loop variables of `render` after
`n` executions of the loop body from the state `(x, y)`. -/
def orbitFrom (cx cy x y : ℚ) : Nat → ℚ × ℚ
  | 0 => (x, y)
  | n + 1 => mandelStep cx cy (orbitFrom cx cy x y n).1 (orbitFrom cx cy x y n).2

/-- `LockfreeMandelbrot::scaleX` (lines 116-118):
`static_cast<double>(x) / mWidthPixels * 2.47 - 2`. -/
def scaleX (w x : Nat) : ℚ := (x : ℚ) / (w : ℚ) * (247 / 100) - 2

/-- `LockfreeMandelbrot::scaleY` (lines 120-122):
`static_cast<double>(y) / mHeightPixels * 2.24 - 1.12`. -/
def scaleY (h y : Nat) : ℚ := (y : ℚ) / (h : ℚ) * (224 / 100) - 112 / 100

/-- `LockfreeMandelbrot::positionFromIndex` (lines 179-182):
`y = in / width; x = in - (y * width)`; returns `(x, y)`. -/
def positionFromIndex (w idx : Nat) : Nat × Nat :=
  let y := idx / w
  (idx - y * w, y)

/-! ### The result grid and the thread-local stack -/

/-- The shared result grid `MandelbrotBitmap.map` modelled as a total function:
cell `map[x][y]` is `g x y`. -/
def Grid := Nat → Nat → Nat

/-- The freshly constructed grid: `MandelbrotBitmap` (lines 52-65)
value-initialises every cell to 0. -/
def grid0 : Grid := fun _ _ => 0

/-- `Stack::Item` (lines 26-30). -/
structure Item where
  x : Nat
  y : Nat
  res : Nat
deriving DecidableEq

/-- The `Stack` of lines 23-48: `arr[0..lastPos)` in push order. -/
structure Stack where
  arr : List Item
deriving DecidableEq

/-- `Stack::push` (lines 36-39): write to the next free slot. -/
def Stack.push (s : Stack) (item : Item) : Stack := ⟨s.arr ++ [item]⟩

/-- One write `resultMap[e.x][e.y] = e.res` of `Stack::dumpToMap` (line 44). -/
def gridWrite (g : Grid) (x y r : Nat) : Grid :=
  fun a b => if a = x ∧ b = y then r else g a b

/-- The `for` loop of `Stack::dumpToMap` (lines 42-45), entries written in
push order. -/
def writeItems (items : List Item) (g : Grid) : Grid :=
  items.foldl (fun g2 e => gridWrite g2 e.x e.y e.res) g

/-- `Stack::dumpToMap` (lines 41-47): writes every accumulated entry into the
grid, then resets `lastPos` to 0. -/
def Stack.dumpToMap (s : Stack) (g : Grid) : Grid × Stack :=
  (writeItems s.arr g, ⟨[]⟩)

/-- Two items address different grid cells. -/
def keyNe (a b : Item) : Prop := a.x ≠ b.x ∨ a.y ≠ b.y

instance (a b : Item) : Decidable (keyNe a b) := by unfold keyNe; infer_instance

/-! ### The worker loop, single-worker execution

`LockfreeMandelbrot::loop` (lines 124-156) alternates between flush-and-claim
points (the body of the `if` at line 132: dump the stack, fetch-and-add a batch
id, exit when `currentBatch >= totalArea / cBatchSize`, otherwise jump to
`currentIndex = currentBatch * cBatchSize`) and runs of per-index work (scale,
render, push, increment, until the condition `currentIndex % cBatchSize == 0 ||
currentIndex >= totalArea` fires again).  The definitions below embed exactly
this control flow for a single worker (thread count 1), which claims batch ids
0, 1, 2, ... in order; fuel arguments strictly dominate the number of remaining
claims / indices, so the fuel-exhaustion branches are unreachable. -/

/-- The run of indices processed consecutively starting at
`currentIndex = cur` (just after a claim set it, or mid-batch), ending when the
flush condition `(cur+1) % cBatchSize == 0 || (cur+1) >= totalArea` fires.
`fuel = cBatchSize` always suffices for a claimed batch. -/
def runIndices (ta bs : Nat) : Nat → Nat → List Nat
  | 0, _ => []
  | fuel + 1, cur =>
    cur :: (if (cur + 1) % bs = 0 ∨ ta ≤ cur + 1 then [] else runIndices ta bs fuel (cur + 1))

/-- The item pushed for a linear index (lines 147-154): coordinates from
`positionFromIndex`, result from `render` on the scaled coordinates. -/
def itemAt (w h idx : Nat) : Item :=
  ⟨(positionFromIndex w idx).1, (positionFromIndex w idx).2,
    render (scaleX w (positionFromIndex w idx).1) (scaleY h (positionFromIndex w idx).2)⟩

/-- The stack contents accumulated while processing claimed batch `b`: one
push per index of the run starting at `currentIndex = b * cBatchSize`. -/
def batchStack (w h bs b : Nat) : Stack :=
  (runIndices (w * h) bs bs (b * bs)).foldl (fun s idx => s.push (itemAt w h idx)) ⟨[]⟩

/-- The single-worker execution of `LockfreeMandelbrot::loop` from a
flush-and-claim point: the stack is dumped, a batch id (= `counter`, the value
of `mMandelbrotIterator`) is claimed, the worker returns if
`counter >= totalArea / cBatchSize` and otherwise processes the whole claimed
batch before reaching the next flush-and-claim point. -/
def loop (w h bs : Nat) : Nat → Nat → Stack → Grid → Grid
  | 0, _, _, g => g
  | fuel + 1, counter, s, g =>
    if w * h / bs ≤ counter then (s.dumpToMap g).1
    else loop w h bs fuel (counter + 1) (batchStack w h bs counter) ((s.dumpToMap g).1)

/-- The final grid of a complete single-worker run: `loop()` entered with an
empty stack, `mMandelbrotIterator = 0` (reset by `startThreads`), and the
zero-initialised grid; the first loop iteration (currentIndex 0) immediately
hits the flush condition `0 % cBatchSize == 0`. -/
def seqRun (w h bs : Nat) : Grid := loop w h bs (w * h / bs + 1) 0 ⟨[]⟩ grid0

/-- The linear indices processed by the same execution, in processing order. -/
def loopIndices (ta bs : Nat) : Nat → Nat → List Nat
  | 0, _ => []
  | fuel + 1, counter =>
    if ta / bs ≤ counter then []
    else runIndices ta bs bs (counter * bs) ++ loopIndices ta bs fuel (counter + 1)

/-- All linear indices processed by a complete run of the worker loop. -/
def processedIndices (ta bs : Nat) : List Nat := loopIndices ta bs (ta / bs + 1) 0

/-! ### The orchestrator (thread lifecycle) -/

/-- Orchestrator state: `mMandelbrotIterator` (the partitioner counter),
`mIsStarted`, and `mThreads` modelled as joinable flags (a spawned thread is
joinable until joined). -/
structure Orch where
  mandelbrotIterator : Nat
  isStarted : Bool
  threads : List Bool
deriving DecidableEq

/-- `LockfreeMandelbrot::startThreads` (lines 95-109).  Note the order in the
source: `mMandelbrotIterator.store(0)` executes unconditionally BEFORE the
`compare_exchange_strong` on `mIsStarted`; only on a successful exchange are
`numThreads` threads spawned.  Returns the new state and the boolean result. -/
def startThreads (o : Orch) (numThreads : Nat) : Orch × Bool :=
  let o1 : Orch := ⟨0, o.isStarted, o.threads⟩
  if o1.isStarted = false then
    (⟨o1.mandelbrotIterator, true, o1.threads ++ List.replicate numThreads true⟩, true)
  else (o1, false)

/-- `LockfreeMandelbrot::waitToFinish` (lines 82-93): if not started, return
immediately; otherwise store `false` into `mIsStarted` and join every joinable
thread.  Returns the new state and the number of joins performed. -/
def waitToFinish (o : Orch) : Orch × Nat :=
  if o.isStarted = false then (o, 0)
  else (⟨o.mandelbrotIterator, false, o.threads.map (fun _ => false)⟩, o.threads.count true)

/-- A concrete running orchestrator: counter 7, started, one live thread. -/
def oRunning : Orch := ⟨7, true, [true]⟩

/-! ### The renderer branch cascade -/

/-- The branch cascade of `drawFromResults` (lines 198-207): `r <= 10` gives
a space, `r > 10 && r <= 100` a dot, `r > 100 && r <= 200` an x,
`r > 200 && r <= 1000` an O; otherwise `c` is left unassigned (`none`). -/
def drawChar (r : Nat) : Option Char :=
  if r ≤ 10 then some ' '
  else if 10 < r ∧ r ≤ 100 then some '.'
  else if 100 < r ∧ r ≤ 200 then some 'x'
  else if 200 < r ∧ r ≤ 1000 then some 'O'
  else none

/-- The four branch guards of `drawFromResults`, evaluated independently. -/
def branchFlags (r : Nat) : List Bool :=
  [decide (r ≤ 10), decide (10 < r ∧ r ≤ 100),
   decide (100 < r ∧ r ≤ 200), decide (200 < r ∧ r ≤ 1000)]

/-! ### Interleaving model of the flush protocol (claim C6)

The only grid accesses in the whole program performed by worker threads are
the `threadStack.dumpToMap(mResults.map)` calls at line 136, placed between
the spin loop on `mIsSavingResults` (lines 133-135) and the
`store(false, std::memory_order_release)` at line 137.  The spin loop is

    bool dummy{false};
    while (!mIsSavingResults.compare_exchange_weak(dummy, true, acquire, relaxed));

`compare_exchange_weak(expected, desired)` compares the atomic against
`expected`; on success it stores `desired` into the atomic and returns true,
on failure it stores the value it observed INTO `expected` and returns false.
`dummy` is never reset to false inside the loop, so after one failed attempt
the next attempt compares the observed `true` against `true` and succeeds as a
true-to-true exchange even though another worker still holds the flag.  The
model below is the sequentially consistent interleaving of exactly this code:
a worker reaching the flush point starts spinning with `dummy = false`
(`beginFlush`); an exchange attempt succeeds, setting the flag and entering
the critical section, whenever the flag equals the worker's current `dummy`
(`casSucceed`), and otherwise copies the flag's value into `dummy`
(`casFail`); the release store clears the flag (`store`); the grid is mutated
only by a worker inside the critical section (`dump`). -/

inductive WPhase where
  | outside
  | spin (dummy : Bool)
  | inCS
deriving DecidableEq

/-- Shared state of the flush protocol: the `mIsSavingResults` flag, each
worker's position relative to the critical section (with its thread-local
`dummy` while it is spinning), and the shared grid. -/
structure SyncState where
  isSavingResults : Bool
  phases : Nat → WPhase
  grid : Grid

/-- Pointwise update of a worker's phase. -/
def setPhase (p : Nat → WPhase) (i : Nat) (v : WPhase) : Nat → WPhase :=
  fun j => if j = i then v else p j

/-- One transition of the flush protocol, with the exact
`compare_exchange_weak` semantics of lines 133-135. -/
inductive SyncStep : SyncState → SyncState → Prop
  | beginFlush (s : SyncState) (i : Nat) (hout : s.phases i = WPhase.outside) :
      SyncStep s ⟨s.isSavingResults, setPhase s.phases i (WPhase.spin false), s.grid⟩
  | casSucceed (s : SyncState) (i : Nat) (d : Bool) (hspin : s.phases i = WPhase.spin d)
      (hflag : s.isSavingResults = d) :
      SyncStep s ⟨true, setPhase s.phases i WPhase.inCS, s.grid⟩
  | casFail (s : SyncState) (i : Nat) (d : Bool) (hspin : s.phases i = WPhase.spin d)
      (hflag : s.isSavingResults ≠ d) :
      SyncStep s ⟨s.isSavingResults, setPhase s.phases i (WPhase.spin s.isSavingResults), s.grid⟩
  | dump (s : SyncState) (i : Nat) (items : List Item)
      (hin : s.phases i = WPhase.inCS) :
      SyncStep s ⟨s.isSavingResults, s.phases, writeItems items s.grid⟩
  | store (s : SyncState) (i : Nat) (hin : s.phases i = WPhase.inCS) :
      SyncStep s ⟨false, setPhase s.phases i WPhase.outside, s.grid⟩

/-- Initial shared state: flag clear, every worker outside, zero grid. -/
def initSync : SyncState := ⟨false, fun _ => WPhase.outside, grid0⟩

/-- Reachability from the initial state under the protocol. -/
def SyncReach (s : SyncState) : Prop := Relation.ReflTransGen SyncStep initSync s

/-- At most one worker is between winning the exchange and the release store. -/
def MutualExclusion (s : SyncState) : Prop :=
  ∀ i j, s.phases i = WPhase.inCS → s.phases j = WPhase.inCS → i = j

/-- The five-state interleaving refuting mutual exclusion, step 1:
worker 0 reaches its flush point (`bool dummy{false}`). -/
def syncS1 : SyncState := ⟨false, setPhase initSync.phases 0 (WPhase.spin false), grid0⟩

/-- Step 2: worker 1 reaches its flush point too. -/
def syncS2 : SyncState := ⟨false, setPhase syncS1.phases 1 (WPhase.spin false), grid0⟩

/-- Step 3: worker 0 wins the exchange (flag false to true) and starts
dumping. -/
def syncS3 : SyncState := ⟨true, setPhase syncS2.phases 0 WPhase.inCS, grid0⟩

/-- Step 4: worker 1's exchange fails against the held flag and stores the
observed `true` into its `dummy`. -/
def syncS4 : SyncState := ⟨true, setPhase syncS3.phases 1 (WPhase.spin true), grid0⟩

/-- Step 5: worker 1 retries; the flag equals its `dummy` (`true`), so the
exchange succeeds and worker 1 enters the critical section while worker 0 is
still inside it. -/
def syncS5 : SyncState := ⟨true, setPhase syncS4.phases 1 WPhase.inCS, grid0⟩

/-! ### Concrete stacks for claim C8 -/

/-- A buffer with two accumulated entries for the same cell `(0,0)`. -/
def stackDup : Stack := ⟨[⟨0, 0, 1⟩, ⟨0, 0, 2⟩]⟩

/-- A buffer with two entries for distinct cells. -/
def sampleStack : Stack := ⟨[⟨0, 0, 5⟩, ⟨1, 2, 7⟩]⟩

/-! ### Lemmas about the escape-time kernel -/

lemma renderAux_succ_of_escaped {cx cy x y px py : ℚ} (n : Nat)
    (hp : mandelStep cx cy x y = (px, py)) (h : escaped (px, py)) :
    renderAux cx cy x y (n + 1) = 0 := by
  simp only [renderAux, hp]
  simp [h]

lemma renderAux_succ_of_not_escaped {cx cy x y px py : ℚ} (n : Nat)
    (hp : mandelStep cx cy x y = (px, py)) (h : ¬ escaped (px, py)) :
    renderAux cx cy x y (n + 1) = renderAux cx cy px py n + 1 := by
  simp only [renderAux, hp]
  simp [h]

lemma renderAux_le (cx cy : ℚ) : ∀ (fuel : Nat) (x y : ℚ), renderAux cx cy x y fuel ≤ fuel := by
  intro fuel
  induction fuel with
  | zero => intro x y; simp [renderAux]
  | succ n ih =>
    intro x y
    simp only [renderAux]
    by_cases h : escaped (mandelStep cx cy x y)
    · simp [h]
    · simp only [h, if_false]
      exact Nat.add_le_add_right (ih _ _) 1

lemma render_le (cx cy : ℚ) : render cx cy ≤ cMaxIterations :=
  renderAux_le cx cy cMaxIterations 0 0

lemma orbitFrom_one (cx cy x y : ℚ) : orbitFrom cx cy x y 1 = mandelStep cx cy x y := by
  simp [orbitFrom]

lemma orbitFrom_shift (cx cy x y : ℚ) :
    ∀ n, orbitFrom cx cy x y (n + 1) =
      orbitFrom cx cy (mandelStep cx cy x y).1 (mandelStep cx cy x y).2 n := by
  intro n
  induction n with
  | zero => simp [orbitFrom]
  | succ m ih => rw [orbitFrom, ih, orbitFrom]

lemma renderAux_eq_fuel_iff (cx cy : ℚ) :
    ∀ (fuel : Nat) (x y : ℚ), renderAux cx cy x y fuel = fuel ↔
      ∀ k, 1 ≤ k → k ≤ fuel → ¬ escaped (orbitFrom cx cy x y k) := by
  intro fuel
  induction fuel with
  | zero =>
    intro x y
    constructor
    · intro _ k h1 h0
      omega
    · intro _
      rfl
  | succ n ih =>
    intro x y
    simp only [renderAux]
    by_cases h : escaped (mandelStep cx cy x y)
    · simp only [h, if_true]
      constructor
      · intro h0
        omega
      · intro hall
        exact absurd h (by
          have := hall 1 (by omega) (by omega)
          rwa [orbitFrom_one] at this)
    · simp only [h, if_false]
      constructor
      · intro hra k h1 hk
        rcases Nat.exists_eq_add_of_le h1 with ⟨j, rfl⟩
        cases j with
        | zero => rw [orbitFrom_one]; exact h
        | succ m =>
          rw [show 1 + (m + 1) = (m + 1) + 1 by omega, orbitFrom_shift]
          exact (ih _ _).mp (by omega) (m + 1) (by omega) (by omega)
      · intro hall
        have : renderAux cx cy (mandelStep cx cy x y).1 (mandelStep cx cy x y).2 n = n := by
          apply (ih _ _).mpr
          intro j h1 hj
          have := hall (j + 1) (by omega) (by omega)
          rwa [orbitFrom_shift] at this
        omega

lemma renderAux_lt (cx cy : ℚ) :
    ∀ (fuel : Nat) (x y : ℚ) (n : Nat), renderAux cx cy x y fuel = n → n < fuel →
      escaped (orbitFrom cx cy x y (n + 1)) ∧
        ∀ k, 1 ≤ k → k ≤ n → ¬ escaped (orbitFrom cx cy x y k) := by
  intro fuel
  induction fuel with
  | zero =>
    intro x y n _ h
    omega
  | succ m ih =>
    intro x y n hra hlt
    simp only [renderAux] at hra
    by_cases h : escaped (mandelStep cx cy x y)
    · simp only [h, if_true] at hra
      subst hra
      refine ⟨by rwa [orbitFrom_one], ?_⟩
      intro k h1 h0
      omega
    · simp only [h, if_false] at hra
      rcases n with _ | n0
      · omega
      · have hra0 : renderAux cx cy (mandelStep cx cy x y).1 (mandelStep cx cy x y).2 m = n0 := by
          omega
        have hres := ih _ _ n0 hra0 (by omega)
        constructor
        · rw [orbitFrom_shift]
          exact hres.1
        · intro k h1 hk
          rcases Nat.exists_eq_add_of_le h1 with ⟨j, rfl⟩
          cases j with
          | zero => rw [orbitFrom_one]; exact h
          | succ i =>
            rw [show 1 + (i + 1) = (i + 1) + 1 by omega, orbitFrom_shift]
            exact hres.2 (i + 1) (by omega) (by omega)

/-! ### Concrete kernel values -/

/-- Pixel (110, 117) of the 170 by 118 grid (linear index 20000): the kernel
escapes after 3 iterations. -/
lemma render_val_110_117 : render (scaleX 170 110) (scaleY 118 117) = 3 := by
  have hcx : scaleX 170 110 = -683 / 1700 := by norm_num [scaleX]
  have hcy : scaleY 118 117 = 1624 / 1475 := by norm_num [scaleY]
  have s1 : mandelStep (-683 / 1700) (1624 / 1475) 0 0 = (-683 / 1700, 1624 / 1475) := by
    norm_num [mandelStep, Prod.mk.injEq]
  have s2 : mandelStep (-683 / 1700) (1624 / 1475) (-683 / 1700) (1624 / 1475) =
      (-2922633503 / 2012018000, 135604 / 626875) := by
    norm_num [mandelStep, Prod.mk.injEq]
  have s3 : mandelStep (-683 / 1700) (1624 / 1475) (-2922633503 / 2012018000) (135604 / 626875) =
      (168148173823322043161 / 101205410808100000000, 74506654564797 / 157660472968750) := by
    norm_num [mandelStep, Prod.mk.injEq]
  have s4 : mandelStep (-683 / 1700) (1624 / 1475) (168148173823322043161 / 101205410808100000000)
      (74506654564797 / 157660472968750) =
      (21871267483026763023884429920090891614321 / 10242535176836284295025610000000000000000,
        21312122284600694415708013305203317 / 7978046467500844571773437500000000) := by
    norm_num [mandelStep, Prod.mk.injEq]
  have h1 : ¬ escaped ((-683 : ℚ) / 1700, (1624 : ℚ) / 1475) := by norm_num [escaped]
  have h2 : ¬ escaped ((-2922633503 : ℚ) / 2012018000, (135604 : ℚ) / 626875) := by
    norm_num [escaped]
  have h3 : ¬ escaped ((168148173823322043161 : ℚ) / 101205410808100000000,
      (74506654564797 : ℚ) / 157660472968750) := by norm_num [escaped]
  have h4 : escaped ((21871267483026763023884429920090891614321 : ℚ) /
      10242535176836284295025610000000000000000,
      (21312122284600694415708013305203317 : ℚ) / 7978046467500844571773437500000000) := by
    norm_num [escaped]
  rw [hcx, hcy]
  show renderAux (-683 / 1700) (1624 / 1475) 0 0 1000 = 3
  rw [show (1000 : Nat) = 999 + 1 from rfl, renderAux_succ_of_not_escaped 999 s1 h1]
  rw [show (999 : Nat) = 998 + 1 from rfl, renderAux_succ_of_not_escaped 998 s2 h2]
  rw [show (998 : Nat) = 997 + 1 from rfl, renderAux_succ_of_not_escaped 997 s3 h3]
  rw [show (997 : Nat) = 996 + 1 from rfl, renderAux_succ_of_escaped 996 s4 h4]

/-- Pixel (1, 0) of a 5 by 2 grid: the kernel escapes after 1 iteration. -/
lemma render_val_5x2 : render (scaleX 5 1) (scaleY 2 0) = 1 := by
  have hcx : scaleX 5 1 = -753 / 500 := by norm_num [scaleX]
  have hcy : scaleY 2 0 = -28 / 25 := by norm_num [scaleY]
  have s1 : mandelStep (-753 / 500) (-28 / 25) 0 0 = (-753 / 500, -28 / 25) := by
    norm_num [mandelStep, Prod.mk.injEq]
  have s2 : mandelStep (-753 / 500) (-28 / 25) (-753 / 500) (-28 / 25) =
      (-123091 / 250000, 7042 / 3125) := by
    norm_num [mandelStep, Prod.mk.injEq]
  have h1 : ¬ escaped ((-753 : ℚ) / 500, (-28 : ℚ) / 25) := by norm_num [escaped]
  have h2 : escaped ((-123091 : ℚ) / 250000, (7042 : ℚ) / 3125) := by norm_num [escaped]
  rw [hcx, hcy]
  show renderAux (-753 / 500) (-28 / 25) 0 0 1000 = 1
  rw [show (1000 : Nat) = 999 + 1 from rfl, renderAux_succ_of_not_escaped 999 s1 h1]
  rw [show (999 : Nat) = 998 + 1 from rfl, renderAux_succ_of_escaped 998 s2 h2]

/-- At `c = (3, 0)` the kernel escapes immediately and returns 0. -/
lemma render_val_three : render 3 0 = 0 := by
  have s1 : mandelStep 3 0 0 0 = (3, 0) := by norm_num [mandelStep, Prod.mk.injEq]
  have h1 : escaped ((3 : ℚ), (0 : ℚ)) := by norm_num [escaped]
  show renderAux 3 0 0 0 1000 = 0
  rw [show (1000 : Nat) = 999 + 1 from rfl, renderAux_succ_of_escaped 999 s1 h1]

/-- C7: for every pair of coordinates, `render` performs at most 1000 loop
iterations and returns the iteration count of the reference escape-time
recurrence `z ← z² + c` from `z = 0`: the result is in `0..1000`; it equals
1000 exactly when no orbit point `z_k` (`1 ≤ k ≤ 1000`) passes the escape test
`|z|² > 4`; and when it is below 1000 it is the number of iterations performed
before the first escaping orbit point. -/
theorem c7_render_escape_time (cx cy : ℚ) :
    render cx cy ≤ cMaxIterations ∧
    (render cx cy = cMaxIterations ↔
      ∀ k, 1 ≤ k → k ≤ cMaxIterations → ¬ escaped (orbitFrom cx cy 0 0 k)) ∧
    (render cx cy < cMaxIterations →
      escaped (orbitFrom cx cy 0 0 (render cx cy + 1)) ∧
        ∀ k, 1 ≤ k → k ≤ render cx cy → ¬ escaped (orbitFrom cx cy 0 0 k)) := by
  refine ⟨render_le cx cy, renderAux_eq_fuel_iff cx cy cMaxIterations 0 0, ?_⟩
  intro hlt
  exact renderAux_lt cx cy cMaxIterations 0 0 (render cx cy) rfl hlt

/-- Witness for C7 at the concrete input `c = (3, 0)`. -/
theorem c7_render_escape_time_witness :
    render 3 0 ≤ cMaxIterations ∧ escaped (orbitFrom 3 0 0 0 (render 3 0 + 1)) := by
  have hlt : render 3 0 < cMaxIterations := by
    rw [render_val_three]
    norm_num [cMaxIterations]
  exact ⟨(c7_render_escape_time 3 0).1, ((c7_render_escape_time 3 0).2.2 hlt).1⟩

/-! ### Lemmas about grid writes -/

lemma writeItems_nil (g : Grid) : writeItems [] g = g := rfl

lemma writeItems_cons (e : Item) (l : List Item) (g : Grid) :
    writeItems (e :: l) g = writeItems l (gridWrite g e.x e.y e.res) := rfl

lemma writeItems_append (l1 l2 : List Item) (g : Grid) :
    writeItems (l1 ++ l2) g = writeItems l2 (writeItems l1 g) :=
  List.foldl_append _ _ l1 l2

lemma gridWrite_self (g : Grid) (x y r : Nat) : gridWrite g x y r x y = r := by
  simp [gridWrite]

lemma gridWrite_other (g : Grid) (x y r a b : Nat) (h : ¬ (a = x ∧ b = y)) :
    gridWrite g x y r a b = g a b := by
  simp only [gridWrite, if_neg h]

lemma writeItems_not_mem (l : List Item) (g : Grid) (x y : Nat)
    (h : ∀ e, e ∈ l → ¬ (e.x = x ∧ e.y = y)) : writeItems l g x y = g x y := by
  induction l generalizing g with
  | nil => rfl
  | cons a l ih =>
    rw [writeItems_cons, ih _ (fun e he => h e (List.mem_cons_of_mem a he))]
    exact gridWrite_other g a.x a.y a.res x y (by
      intro hc
      exact h a (List.mem_cons_self a l) ⟨hc.1.symm ▸ rfl, hc.2.symm ▸ rfl⟩)

lemma writeItems_mem (l : List Item) (g : Grid) (hnd : l.Pairwise keyNe) (e : Item)
    (he : e ∈ l) : writeItems l g e.x e.y = e.res := by
  induction l generalizing g with
  | nil => cases he
  | cons a l ih =>
    rcases List.pairwise_cons.mp hnd with ⟨ha, hl⟩
    rcases List.mem_cons.mp he with rfl | hmem
    · rw [writeItems_cons]
      rw [writeItems_not_mem l _ e.x e.y (by
        intro b hb hc
        rcases ha b hb with hne | hne
        · exact hne hc.1.symm
        · exact hne hc.2.symm)]
      exact gridWrite_self g e.x e.y e.res
    · rw [writeItems_cons]
      exact ih _ hl hmem

/-! ### Lemmas about the worker loop -/

lemma positionFromIndex_eq (w idx : Nat) : positionFromIndex w idx = (idx % w, idx / w) := by
  have h := Nat.div_add_mod idx w
  have h2 : w * (idx / w) = idx / w * w := Nat.mul_comm _ _
  simp only [positionFromIndex, Prod.mk.injEq]
  refine ⟨by omega, trivial⟩

lemma runIndices_eq_range' (ta bs : Nat) (hbs : 0 < bs) :
    ∀ (j b : Nat), j ≤ bs → (b + 1) * bs ≤ ta →
      runIndices ta bs j (b * bs + (bs - j)) = List.range' (b * bs + (bs - j)) j := by
  intro j
  induction j with
  | zero => intro b _ _; rfl
  | succ n ih =>
    intro b hj hta
    rw [runIndices]
    rcases n with _ | m
    · have hmod : (b * bs + (bs - 1) + 1) % bs = 0 := by
        have heq : b * bs + (bs - 1) + 1 = bs * (b + 1) + 0 := by ring_nf; omega
        rw [heq, Nat.mul_add_mod]
        exact Nat.zero_mod bs
      rw [if_pos (Or.inl hmod)]
      rfl
    · have harg : b * bs + (bs - (m + 1 + 1)) + 1 = b * bs + (bs - (m + 1)) := by omega
      have hmod : (b * bs + (bs - (m + 1))) % bs = bs - (m + 1) := by
        have h1 : b * bs + (bs - (m + 1)) = bs * b + (bs - (m + 1)) := by ring_nf
        rw [h1, Nat.mul_add_mod]
        exact Nat.mod_eq_of_lt (by omega)
      have hta2 : b * bs + bs ≤ ta := by
        calc b * bs + bs = (b + 1) * bs := by ring
          _ ≤ ta := hta
      have hcond : ¬ ((b * bs + (bs - (m + 1 + 1)) + 1) % bs = 0 ∨
          ta ≤ b * bs + (bs - (m + 1 + 1)) + 1) := by
        rw [harg]
        push_neg
        refine ⟨by rw [hmod]; omega, by omega⟩
      rw [if_neg hcond, harg, ih b (by omega) hta]
      conv_rhs => rw [List.range'_succ]
      rw [harg]

lemma runIndices_batch (ta bs : Nat) (hbs : 0 < bs) (b : Nat) (hta : (b + 1) * bs ≤ ta) :
    runIndices ta bs bs (b * bs) = List.range' (b * bs) bs := by
  have h := runIndices_eq_range' ta bs hbs bs b (le_refl bs) hta
  simpa using h

lemma foldl_push_arr (f : Nat → Item) :
    ∀ (l : List Nat) (s : Stack), (l.foldl (fun s2 i => s2.push (f i)) s).arr = s.arr ++ l.map f := by
  intro l
  induction l with
  | nil => intro s; simp
  | cons a l ih =>
    intro s
    rw [List.foldl_cons, ih, List.map_cons]
    simp [Stack.push]

lemma batchStack_arr (w h bs b : Nat) :
    (batchStack w h bs b).arr = (runIndices (w * h) bs bs (b * bs)).map (itemAt w h) := by
  rw [batchStack, foldl_push_arr]
  rfl

lemma loop_unroll (w h bs : Nat) :
    ∀ (fuel counter : Nat) (s : Stack) (g : Grid), 0 < fuel → w * h / bs < counter + fuel →
      loop w h bs fuel counter s g =
        writeItems (s.arr ++ (List.range' counter (w * h / bs - counter)).flatMap
          (fun b => (batchStack w h bs b).arr)) g := by
  intro fuel
  induction fuel with
  | zero => intro counter s g h0 _; omega
  | succ m ih =>
    intro counter s g _ hlt
    rw [loop]
    by_cases hstop : w * h / bs ≤ counter
    · rw [if_pos hstop]
      have h0 : w * h / bs - counter = 0 := by omega
      rw [h0]
      simp only [List.range'_zero, List.flatMap_nil, List.append_nil]
      rfl
    · rw [if_neg hstop]
      have hm : 0 < m := by omega
      rw [ih (counter + 1) (batchStack w h bs counter) ((s.dumpToMap g).1) hm (by omega)]
      have hsplit : w * h / bs - counter = (w * h / bs - (counter + 1)) + 1 := by omega
      rw [hsplit, List.range'_succ, List.flatMap_cons]
      show writeItems _ (writeItems s.arr g) = _
      rw [← writeItems_append, ← List.append_assoc]

lemma loopIndices_unroll (ta bs : Nat) :
    ∀ (fuel counter : Nat), ta / bs ≤ counter + fuel →
      loopIndices ta bs fuel counter =
        (List.range' counter (ta / bs - counter)).flatMap
          (fun b => runIndices ta bs bs (b * bs)) := by
  intro fuel
  induction fuel with
  | zero =>
    intro counter hle
    have h0 : ta / bs - counter = 0 := by omega
    rw [h0]
    rfl
  | succ m ih =>
    intro counter hle
    rw [loopIndices]
    by_cases hstop : ta / bs ≤ counter
    · rw [if_pos hstop]
      have h0 : ta / bs - counter = 0 := by omega
      rw [h0]
      rfl
    · rw [if_neg hstop]
      rw [ih (counter + 1) (by omega)]
      have hsplit : ta / bs - counter = (ta / bs - (counter + 1)) + 1 := by omega
      rw [hsplit, List.range'_succ, List.flatMap_cons]

lemma flatMap_batches (ta bs : Nat) (hbs : 0 < bs) :
    ∀ (k a : Nat), (a + k) * bs ≤ ta →
      (List.range' a k).flatMap (fun b => runIndices ta bs bs (b * bs)) =
        List.range' (a * bs) (k * bs) := by
  intro k
  induction k with
  | zero => intro a _; simp
  | succ m ih =>
    intro a hta
    have hle1 : (a + 1) * bs ≤ (a + (m + 1)) * bs := Nat.mul_le_mul_right bs (by omega)
    have hta1 : (a + 1) * bs ≤ ta := le_trans hle1 hta
    have hta2 : (a + 1 + m) * bs ≤ ta := by
      rw [show a + 1 + m = a + (m + 1) by omega]
      exact hta
    rw [List.range'_succ, List.flatMap_cons, runIndices_batch ta bs hbs a hta1, ih (a + 1) hta2]
    have h1 : (a + 1) * bs = a * bs + 1 * bs := by ring
    have h2 : (m + 1) * bs = m * bs + bs := by ring
    rw [h1, h2]
    exact List.range'_append _ _ _ _

lemma processedIndices_eq (ta bs : Nat) (hbs : 0 < bs) :
    processedIndices ta bs = List.range (ta / bs * bs) := by
  have hfc : ta / bs ≤ 0 + (ta / bs + 1) := by
    rw [Nat.zero_add]
    exact Nat.le_succ _
  have hmul : (0 + ta / bs) * bs ≤ ta := by simpa using Nat.div_mul_le_self ta bs
  rw [processedIndices, loopIndices_unroll ta bs (ta / bs + 1) 0 hfc]
  have h0 : ta / bs - 0 = ta / bs := Nat.sub_zero _
  rw [h0, flatMap_batches ta bs hbs (ta / bs) 0 hmul]
  rw [List.range_eq_range']
  norm_num

lemma seqRun_eq_writeItems (w h bs : Nat) (hbs : 0 < bs) :
    seqRun w h bs = writeItems ((List.range (w * h / bs * bs)).map (itemAt w h)) grid0 := by
  have hpos : 0 < w * h / bs + 1 := Nat.succ_pos _
  have hfc : w * h / bs < 0 + (w * h / bs + 1) := by
    rw [Nat.zero_add]
    exact Nat.lt_succ_self _
  have hmul : (0 + w * h / bs) * bs ≤ w * h := by simpa using Nat.div_mul_le_self (w * h) bs
  rw [seqRun, loop_unroll w h bs (w * h / bs + 1) 0 ⟨[]⟩ grid0 hpos hfc]
  simp only [List.nil_append]
  rw [List.flatMap_congr (fun b _ => batchStack_arr w h bs b)]
  rw [← List.map_flatMap]
  have h0 : w * h / bs - 0 = w * h / bs := Nat.sub_zero _
  rw [h0, flatMap_batches (w * h) bs hbs (w * h / bs) 0 hmul]
  rw [List.range_eq_range']
  norm_num

lemma itemAt_eq (w h idx : Nat) :
    itemAt w h idx = ⟨idx % w, idx / w, render (scaleX w (idx % w)) (scaleY h (idx / w))⟩ := by
  rw [itemAt, positionFromIndex_eq]

lemma items_pairwise (w h N : Nat) (_hw : 0 < w) :
    ((List.range N).map (itemAt w h)).Pairwise keyNe := by
  apply List.Pairwise.map (itemAt w h) (R := fun a b => a < b)
  · intro a b hab
    by_contra hkey
    rw [keyNe] at hkey
    push_neg at hkey
    rw [itemAt_eq, itemAt_eq] at hkey
    have hx : a % w = b % w := hkey.1
    have hy : a / w = b / w := hkey.2
    have ha := Nat.div_add_mod a w
    have hb := Nat.div_add_mod b w
    have hcontra : a = b := by
      rw [← ha, ← hb, hx, hy]
    omega
  · exact List.pairwise_lt_range N

lemma writeItems_grid_cell (w h N : Nat) (hw : 0 < w) (x y : Nat) :
    writeItems ((List.range N).map (itemAt w h)) grid0 x y =
      if y * w + x < N ∧ x < w then render (scaleX w x) (scaleY h y) else 0 := by
  by_cases hc : y * w + x < N ∧ x < w
  · rw [if_pos hc]
    have hx : (y * w + x) % w = x := by
      rw [show y * w + x = w * y + x by ring, Nat.mul_add_mod]
      exact Nat.mod_eq_of_lt hc.2
    have hy : (y * w + x) / w = y := by
      rw [show y * w + x = w * y + x by ring, Nat.mul_add_div hw, Nat.div_eq_of_lt hc.2]
      rfl
    have hmem : itemAt w h (y * w + x) ∈ (List.range N).map (itemAt w h) :=
      List.mem_map_of_mem _ (List.mem_range.mpr hc.1)
    have hval := writeItems_mem _ grid0 (items_pairwise w h N hw) _ hmem
    rw [itemAt_eq] at hval
    simp only [hx, hy] at hval
    exact hval
  · rw [if_neg hc]
    rw [writeItems_not_mem _ grid0 x y ?_]
    · rfl
    · intro e he hkey
      rcases List.mem_map.mp he with ⟨idx, hidx, rfl⟩
      rw [List.mem_range] at hidx
      rw [itemAt_eq] at hkey
      have hxk : idx % w = x := hkey.1
      have hyk : idx / w = y := hkey.2
      apply hc
      have hd := Nat.div_add_mod idx w
      refine ⟨?_, ?_⟩
      · have : y * w + x = idx := by
          rw [← hxk, ← hyk]
          rw [show idx / w * w = w * (idx / w) by ring]
          omega
        omega
      · rw [← hxk]
        exact Nat.mod_lt idx hw

/-- The final grid of a complete run, cell by cell: exactly the cells whose
linear index `y * w + x` lies below `(w * h / cBatchSize) * cBatchSize` hold
the kernel value; every other cell still holds the initial 0. -/
lemma seqRun_cell (w h bs : Nat) (hbs : 0 < bs) (hw : 0 < w) (x y : Nat) :
    seqRun w h bs x y =
      if y * w + x < w * h / bs * bs ∧ x < w then render (scaleX w x) (scaleY h y) else 0 := by
  rw [seqRun_eq_writeItems w h bs hbs]
  exact writeItems_grid_cell w h (w * h / bs * bs) hw x y

/-! ### Claims C1, C2, C3, C5: the dropped final partial batch

With the shipped constants `totalArea = 170 * 118 = 20060` and
`cBatchSize = 20000`, a worker exits as soon as its claimed batch id reaches
`totalArea / cBatchSize = 1`, so only batch 0 (indices `0..19999`) is ever
processed; indices `20000..20059` — cells `(110,117)` through `(169,117)` —
are never computed and keep their initial value 0. -/

/-- C1: after a complete run with the shipped constants, the grid cell
`(110, 117)` (linear index `20000 = 117 * 170 + 110 < totalArea`) still holds
the initial value 0, while the kernel value for that coordinate is 3 — the
claimed coverage property fails on the code. -/
theorem c1_cell_left_at_initial_value :
    seqRun 170 118 20000 110 117 = 0 ∧
    render (scaleX 170 110) (scaleY 118 117) = 3 ∧
    positionFromIndex 170 20000 = (110, 117) ∧ 20000 < 170 * 118 ∧
    seqRun 170 118 20000 110 117 ≠ render (scaleX 170 110) (scaleY 118 117) := by
  have ha : seqRun 170 118 20000 110 117 = 0 := by
    rw [seqRun_cell 170 118 20000 (by norm_num) (by norm_num) 110 117, if_neg (by decide)]
  refine ⟨ha, render_val_110_117, by decide, by norm_num, ?_⟩
  rw [ha, render_val_110_117]
  norm_num

/-- C2: the set of indices actually processed by the worker loop is
`[0, (totalArea / batchSize) * batchSize)`, not `[0, totalArea)`: with the
shipped constants index 20000 is dropped, and with `totalArea = 10`,
`batchSize = 3` index 9 is dropped — the union of processed batches has a gap
whenever `batchSize` does not divide `totalArea`. -/
theorem c2_final_partial_batch_dropped :
    processedIndices 20060 20000 = List.range 20000 ∧
    20000 ∉ processedIndices 20060 20000 ∧ 20000 < 20060 ∧
    processedIndices 10 3 = [0, 1, 2, 3, 4, 5, 6, 7, 8] ∧
    9 ∉ processedIndices 10 3 ∧ 9 < 10 := by
  have h1 : processedIndices 20060 20000 = List.range 20000 := by
    rw [processedIndices_eq 20060 20000 (by norm_num)]
  have h2 : processedIndices 10 3 = [0, 1, 2, 3, 4, 5, 6, 7, 8] := by decide
  refine ⟨h1, ?_, by norm_num, h2, ?_, by norm_num⟩
  · rw [h1, List.mem_range]
    norm_num
  · rw [h2]
    decide

/-- C3: when `batchSize > totalArea` the code processes nothing at all:
`totalArea / batchSize = 0`, so every worker's very first claimed batch id
meets the exit condition.  No batch — not even a clipped batch 0 — is
processed, and the grid stays all-zero: cell `(1, 0)` of a 5 by 2 grid with
`batchSize = 20` keeps 0 although its kernel value is 1. -/
theorem c3_oversized_batch_processes_nothing :
    processedIndices 10 20 = [] ∧
    seqRun 5 2 20 1 0 = 0 ∧
    render (scaleX 5 1) (scaleY 2 0) = 1 ∧
    seqRun 5 2 20 1 0 ≠ render (scaleX 5 1) (scaleY 2 0) := by
  have ha : seqRun 5 2 20 1 0 = 0 := by
    rw [seqRun_cell 5 2 20 (by norm_num) (by norm_num) 1 0, if_neg (by decide)]
  refine ⟨by decide, ha, render_val_5x2, ?_⟩
  rw [ha, render_val_5x2]
  norm_num

/-- C5: the final grid contents depend on the batch size: with the shipped
grid 170 by 118, cell `(110, 117)` is 0 under `batchSize = 20000` but holds
the kernel value 3 under `batchSize = 20` (which divides 20060), so two runs
differing only in batch size produce different grids. -/
theorem c5_grid_differs_across_batch_sizes :
    seqRun 170 118 20000 110 117 = 0 ∧
    seqRun 170 118 20 110 117 = 3 ∧
    seqRun 170 118 20000 110 117 ≠ seqRun 170 118 20 110 117 := by
  have ha : seqRun 170 118 20000 110 117 = 0 := by
    rw [seqRun_cell 170 118 20000 (by norm_num) (by norm_num) 110 117, if_neg (by decide)]
  have hb : seqRun 170 118 20 110 117 = 3 := by
    rw [seqRun_cell 170 118 20 (by norm_num) (by norm_num) 110 117, if_pos (by decide)]
    exact render_val_110_117
  refine ⟨ha, hb, ?_⟩
  rw [ha, hb]
  norm_num

/-! ### Claim C8: dumpToMap -/

/-- C8 counterexample: for a buffer holding two entries for the same cell,
`dumpToMap` cannot set the cell to both accumulated results — the first
entry's result is overwritten, so the claim fails as stated over every buffer
state. -/
theorem c8_counterexample_duplicate_cell :
    (⟨0, 0, 1⟩ : Item) ∈ stackDup.arr ∧
    (stackDup.dumpToMap grid0).1 0 0 = 2 ∧
    ¬ (stackDup.dumpToMap grid0).1 0 0 = 1 := by
  refine ⟨by decide, by decide, by decide⟩

/-- C8 (amended): for every buffer whose accumulated entries address pairwise
distinct cells — which is how the worker loop fills it — `dumpToMap` sets cell
`(x_i, y_i)` to `r_i` for every accumulated entry, leaves every other grid
cell unchanged, and leaves the buffer empty. -/
theorem c8_dumpToMap_flushes_and_resets (s : Stack) (g : Grid)
    (hnd : s.arr.Pairwise keyNe) :
    (∀ e, e ∈ s.arr → (s.dumpToMap g).1 e.x e.y = e.res) ∧
    (∀ x y, (∀ e, e ∈ s.arr → ¬ (e.x = x ∧ e.y = y)) → (s.dumpToMap g).1 x y = g x y) ∧
    (s.dumpToMap g).2.arr = [] := by
  refine ⟨?_, ?_, rfl⟩
  · intro e he
    exact writeItems_mem s.arr g hnd e he
  · intro x y hne
    exact writeItems_not_mem s.arr g x y hne

/-- Witness for C8 on a concrete two-entry buffer. -/
theorem c8_dumpToMap_flushes_and_resets_witness :
    sampleStack.arr.Pairwise keyNe ∧ (sampleStack.dumpToMap grid0).1 0 0 = 5 := by
  have hnd : sampleStack.arr.Pairwise keyNe := by decide
  exact ⟨hnd, (c8_dumpToMap_flushes_and_resets sampleStack grid0 hnd).1 ⟨0, 0, 5⟩ (by decide)⟩

/-! ### Claim C4: double start -/

/-- C4 counterexample: calling `startThreads` on a running orchestrator with
partitioner counter 7 returns `false` but does NOT leave the state unchanged:
the counter is reset to 0, because `mMandelbrotIterator.store(0)` precedes the
compare-and-swap in the source. -/
theorem c4_counterexample_counter_reset :
    (startThreads oRunning 3).2 = false ∧
    oRunning.mandelbrotIterator = 7 ∧
    (startThreads oRunning 3).1.mandelbrotIterator = 0 ∧
    (startThreads oRunning 3).1 ≠ oRunning := by
  refine ⟨by decide, by decide, by decide, by decide⟩

/-- C4 (amended): calling `startThreads` while running returns `false`, spawns
no threads and leaves `mIsStarted` and the thread list unchanged, but it
unconditionally resets the partitioner counter to 0 before the guarded
compare-and-swap. -/
theorem c4_failed_start_resets_counter (o : Orch) (n : Nat) (h : o.isStarted = true) :
    (startThreads o n).2 = false ∧
    (startThreads o n).1.isStarted = o.isStarted ∧
    (startThreads o n).1.threads = o.threads ∧
    (startThreads o n).1.mandelbrotIterator = 0 := by
  simp [startThreads, h]

/-- Witness for C4 on the concrete running orchestrator. -/
theorem c4_failed_start_resets_counter_witness :
    oRunning.isStarted = true ∧ (startThreads oRunning 3).2 = false :=
  ⟨by decide, (c4_failed_start_resets_counter oRunning 3 (by decide)).1⟩

/-! ### Claim C9: idempotent teardown -/

/-- C9: `waitToFinish` is idempotent: a second call in a row observes
`mIsStarted == false`, returns immediately, performs zero joins, and leaves
the orchestrator in exactly the state the first call produced. -/
theorem c9_waitToFinish_idempotent (o : Orch) :
    waitToFinish (waitToFinish o).1 = ((waitToFinish o).1, 0) := by
  by_cases h : o.isStarted = false
  · simp [waitToFinish, h]
  · simp [waitToFinish, h]

/-! ### Claim C10: the renderer branch cascade -/

/-- C10: every result the program can store is at most 1000 (`render` is
capped); for every `r ≤ 1000` exactly one of the four guards of
`drawFromResults` holds, so the output character is always assigned; for
`r > 1000` no guard holds and the character is left unassigned. -/
theorem c10_draw_branches_total :
    (∀ cx cy : ℚ, render cx cy ≤ 1000) ∧
    (∀ r : Nat, r ≤ 1000 → (branchFlags r).count true = 1 ∧ (drawChar r).isSome = true) ∧
    (∀ r : Nat, 1000 < r → (branchFlags r).count true = 0 ∧ drawChar r = none) := by
  refine ⟨fun cx cy => render_le cx cy, ?_, ?_⟩
  · intro r hr
    by_cases h1 : r ≤ 10
    · have h2 : ¬ (10 < r) := by omega
      have h3 : ¬ (100 < r) := by omega
      have h4 : ¬ (200 < r) := by omega
      simp [branchFlags, drawChar, h1, h2, h3, h4]
    · by_cases h2 : r ≤ 100
      · have h3 : 10 < r := by omega
        have h4 : ¬ (100 < r) := by omega
        have h5 : ¬ (200 < r) := by omega
        simp [branchFlags, drawChar, h1, h2, h3, h4, h5]
      · by_cases h3 : r ≤ 200
        · have h4 : 100 < r := by omega
          have h5 : ¬ (200 < r) := by omega
          simp [branchFlags, drawChar, h1, h2, h3, h4, h5]
        · have h4 : 200 < r := by omega
          simp [branchFlags, drawChar, h1, h2, h3, h4, hr]
  · intro r hr
    have h1 : ¬ (r ≤ 10) := by omega
    have h2 : ¬ (r ≤ 100) := by omega
    have h3 : ¬ (r ≤ 200) := by omega
    have h4 : ¬ (r ≤ 1000) := by omega
    simp [branchFlags, drawChar, h1, h2, h3, h4]

/-- Witness for C10 at the concrete results 500 and 1001. -/
theorem c10_draw_branches_total_witness :
    (branchFlags 500).count true = 1 ∧ drawChar 1001 = none :=
  ⟨(c10_draw_branches_total.2.1 500 (by norm_num)).1,
   (c10_draw_branches_total.2.2 1001 (by norm_num)).2⟩

/-! ### Claim C6: mutual exclusion of the flush protocol -/

/-- C6 (code_bug): the spin loop of lines 133-135 never resets `dummy`, so a
failed `compare_exchange_weak` turns the next attempt into a true-to-true
exchange that succeeds while the flag is still held by another worker.  The
five-step interleaving `syncS1 .. syncS5` (worker 0 wins the flag; worker 1
fails once, which stores the observed `true` into its `dummy`, then retries
and "succeeds") is reachable and ends with workers 0 and 1 both inside the
critical section, each with a concurrent grid dump enabled — refuting the
claim that at most one worker is ever between winning the exchange and the
release store. -/
theorem c6_two_workers_reach_critical_section :
    SyncReach syncS5 ∧
    syncS5.phases 0 = WPhase.inCS ∧ syncS5.phases 1 = WPhase.inCS ∧
    ¬ MutualExclusion syncS5 ∧
    (∀ items : List Item,
      SyncStep syncS5 ⟨true, syncS5.phases, writeItems items syncS5.grid⟩) := by
  have h1 : SyncStep initSync syncS1 := SyncStep.beginFlush initSync 0 rfl
  have h2 : SyncStep syncS1 syncS2 := SyncStep.beginFlush syncS1 1 rfl
  have h3 : SyncStep syncS2 syncS3 := SyncStep.casSucceed syncS2 0 false rfl rfl
  have h4 : SyncStep syncS3 syncS4 := SyncStep.casFail syncS3 1 false rfl (by decide)
  have h5 : SyncStep syncS4 syncS5 := SyncStep.casSucceed syncS4 1 true rfl rfl
  refine ⟨?_, rfl, rfl, ?_, ?_⟩
  · exact Relation.ReflTransGen.tail
      (Relation.ReflTransGen.tail
        (Relation.ReflTransGen.tail
          (Relation.ReflTransGen.tail
            (Relation.ReflTransGen.tail Relation.ReflTransGen.refl h1) h2) h3) h4) h5
  · intro hme
    have h01 : (0 : Nat) = 1 := hme 0 1 rfl rfl
    exact absurd h01 (by decide)
  · intro items
    exact SyncStep.dump syncS5 0 items rfl

end Mandel
